import Mathlib

/-!
Shallow embedding of `src/uproot4/source/futures.py` (Futures and Executors
for Uproot Sources) and proofs about it.

Conventions of the embedding:
- Python values flowing through a future's result slot are modelled by
  `Option W`: `none` is Python `None` (which is also the slot's initial,
  unwritten value), `some v` is any other value.
- A raised Python exception, as captured by `sys.exc_info()`, is the triple
  `ExcInfo` of class, exception object and traceback; the exception object
  carries its own cause/context chain, so preserving the `err` component
  verbatim preserves the chain.
- Tasks may read and mutate the resource they run against, so a task is a
  function `R → A → R × Except (ExcInfo K E T) (Option W)`: given the
  resource state and the captured arguments it returns the new resource
  state together with either a normal return value or a raised exception.
- `threading.Event` is a `Bool` flag (`_finished`); a call to `result`
  reads the state the wait observed: with no timeout the wait only returns
  once the flag is set, with a timeout it may return while the future is
  still pending.
-/

namespace UprootFutures

/-- Triple captured by `sys.exc_info()` at the point of failure: exception
class (`kind`), exception object (which owns the cause/context chain) and
traceback. -/
structure ExcInfo (K E T : Type) where
  cls : K
  err : E
  trc : T
deriving DecidableEq

/-- Observable outcome of a call to a future's `result`: either a normal
return of a Python value, or the re-raise of a captured exception
(`raise err.with_traceback(trc)` on Python 3, `raise cls, err, trc` on
Python 2 — both re-raise the captured triple verbatim). -/
inductive Outcome (W K E T : Type)
  | value (v : Option W)
  | raises (x : ExcInfo K E T)
deriving DecidableEq

/-- Embedding of `TrivialFuture` (futures.py lines 39–69): a Future that is
filled as soon as it is created. -/
structure TrivialFuture (W : Type) where
  _result : W
deriving DecidableEq

/-- Embedding of `TrivialFuture.cancel` (line 50): always returns False. -/
def TrivialFuture.cancel (_f : TrivialFuture W) : Bool := false

/-- Embedding of `TrivialFuture.cancelled` (line 53): always returns False. -/
def TrivialFuture.cancelled (_f : TrivialFuture W) : Bool := false

/-- Embedding of `TrivialFuture.running` (line 56): always returns False. -/
def TrivialFuture.running (_f : TrivialFuture W) : Bool := false

/-- Embedding of `TrivialFuture.done` (line 59): always returns True. -/
def TrivialFuture.done (_f : TrivialFuture W) : Bool := true

/-- Embedding of `TrivialFuture.result` (line 62): returns the stored
result, ignoring the `timeout` argument. -/
def TrivialFuture.result (f : TrivialFuture W) (_timeout : Option Nat) : W :=
  f._result

/-- Embedding of `TrivialFuture.exception` (line 65): returns None,
ignoring the `timeout` argument. -/
def TrivialFuture.exception (_f : TrivialFuture W) (E : Type) (_timeout : Option Nat) :
    Option E :=
  none

/-- Embedding of `TrivialFuture.add_done_callback` (line 68): calls `fn`
on the future itself, once, synchronously, and returns `fn`'s value. -/
def TrivialFuture.add_done_callback (f : TrivialFuture W) (fn : TrivialFuture W → β) : β :=
  fn f

/-- Embedding of `TaskFuture` (futures.py lines 126–183): a Future filled
by an Executor's Thread, holding the task, its captured arguments, the
`threading.Event` (`_finished`), the result slot and the exc-info slot. -/
structure TaskFuture (R A W K E T : Type) where
  _task : R → A → R × Except (ExcInfo K E T) (Option W)
  _args : A
  _finished : Bool
  _result : Option W
  _excinfo : Option (ExcInfo K E T)

/-- Embedding of `TaskFuture.__init__` (lines 134–150): stores the task
and arguments, clears the event, and leaves both slots at None. -/
def TaskFuture.init (task : R → A → R × Except (ExcInfo K E T) (Option W)) (args : A) :
    TaskFuture R A W K E T :=
  { _task := task, _args := args, _finished := false, _result := none, _excinfo := none }

/-- Embedding of the body of `TaskFuture.result` after the wait (lines
169–177): if no exc-info was recorded, return the result slot; otherwise
re-raise the captured triple. The argument `f` is the future's state as
observed when `self._finished.wait(timeout=timeout)` returned: with
`timeout=None` that state has `_finished = true`; with a timeout the wait
may expire and `f` is then still the pending state. The call mutates
nothing. -/
def TaskFuture.result (f : TaskFuture R A W K E T) : Outcome W K E T :=
  match f._excinfo with
  | none => Outcome.value f._result
  | some x => Outcome.raises x

/-- Embedding of one iteration of `ThreadResourceWorker.run` on a dequeued
`TaskFuture` (lines 234–241): call the task with the owned resource
prepended to the captured arguments; on normal return write the result
slot, on a raised exception write the exc-info slot; then set the event.
Returns the resource's new state and the filled future. -/
def ThreadResourceWorker.runOne (resource : R) (f : TaskFuture R A W K E T) :
    R × TaskFuture R A W K E T :=
  let out := f._task resource f._args
  match out.2 with
  | Except.ok v => (out.1, { f with _result := v, _finished := true })
  | Except.error x => (out.1, { f with _excinfo := some x, _finished := true })

/-- The sequence of states a `TaskFuture` passes through while one
iteration of `ThreadResourceWorker.run` (lines 234–241) processes it:
the pending state as dequeued, the state after exactly one slot write
(event still clear), and the state after `future._finished.set()`.
No later write ever touches the future again. -/
def ThreadResourceWorker.runTrace (resource : R) (f : TaskFuture R A W K E T) :
    List (TaskFuture R A W K E T) :=
  let written :=
    match (f._task resource f._args).2 with
    | Except.ok v => { f with _result := v }
    | Except.error x => { f with _excinfo := some x }
  [f, written, { written with _finished := true }]

/-- A single worker's processing of a FIFO list of dequeued futures, in
order, threading the resource state through (`ThreadResourceWorker.run`'s
loop, lines 229–241, in the absence of a sentinel). -/
def ThreadResourceWorker.runAll (resource : R) :
    List (TaskFuture R A W K E T) → R × List (TaskFuture R A W K E T)
  | [] => (resource, [])
  | f :: rest =>
    let rf := ThreadResourceWorker.runOne resource f
    let rr := ThreadResourceWorker.runAll rf.1 rest
    (rr.1, rf.2 :: rr.2)

/-- Embedding of `ResourceExecutor` (futures.py lines 72–123): an Executor
that manages no Threads, only one Resource. -/
structure ResourceExecutor (R : Type) where
  _resource : R

/-- Embedding of `ResourceExecutor.submit` (lines 105–110): immediately
evaluate `fn(resource, *args, **kwargs)` on the caller's thread; a normal
return is wrapped in a `TrivialFuture`, while a raised exception
propagates to the caller before any future is constructed. -/
def ResourceExecutor.submit (ex : ResourceExecutor R)
    (fn : R → A → Except (ExcInfo K E T) W) (args : A) :
    Except (ExcInfo K E T) (TrivialFuture W) :=
  match fn ex._resource args with
  | Except.ok v => Except.ok (TrivialFuture.mk v)
  | Except.error e => Except.error e

/-- Embedding of `ResourceExecutor.map` (lines 112–117): the generator
`for x in iterables: yield func(self._resource, x)`, with the vararg tuple
`iterables` modelled as a list of items. -/
def ResourceExecutor.map (ex : ResourceExecutor R) (func : R → A → W) :
    List A → List W
  | [] => []
  | x :: rest => func ex._resource x :: ResourceExecutor.map ex func rest

/-- Outcome of a Python call to a bound method whose parameter list has a
fixed number of required positional parameters and no defaults: passing a
different number of arguments raises
`TypeError: ... missing n required positional arguments` before the body
runs. -/
inductive PyCallOutcome (σ : Type)
  | ok (s : σ)
  | typeErrorMissingArgs (missing : Nat)
deriving DecidableEq

/-- Python's positional-argument binding for a bound method with
`required` parameters (none optional): the body runs only when the
argument count matches. -/
def callMethod (required : Nat) (args : List Unit) (body : List Unit → σ) :
    PyCallOutcome σ :=
  if args.length = required then PyCallOutcome.ok (body args)
  else PyCallOutcome.typeErrorMissingArgs (required - args.length)

/-- Body of `ResourceExecutor.__exit__` (lines 99–103): passes `__exit__`
through to the Resource. `exitFn` is the resource's own release step
(its `__exit__`); the three arguments (exception type, value, traceback)
are forwarded and do not affect whether release happens. -/
def ResourceExecutor.exitBody (exitFn : R → R) (ex : ResourceExecutor R) :
    List Unit → ResourceExecutor R :=
  fun _ => ⟨exitFn ex._resource⟩

/-- A call to the bound method `self.__exit__` with the given argument
list. The Python signature (line 99) is
`__exit__(self, exception_type, exception_value, traceback)`: three
required positional parameters besides `self`, no defaults. -/
def ResourceExecutor.exitCall (exitFn : R → R) (ex : ResourceExecutor R)
    (args : List Unit) : PyCallOutcome (ResourceExecutor R) :=
  callMethod 3 args (ResourceExecutor.exitBody exitFn ex)

/-- Embedding of `ResourceExecutor.shutdown` (lines 119–123): its entire
body is `self.__exit__()` — a call to `__exit__` with zero arguments. The
`wait` parameter is ignored. -/
def ResourceExecutor.shutdown (exitFn : R → R) (ex : ResourceExecutor R)
    (_wait : Bool) : PyCallOutcome (ResourceExecutor R) :=
  ResourceExecutor.exitCall exitFn ex []

/-- An item of the shared `queue.Queue` of a `ThreadResourceExecutor`. The
Python queue is untyped, so an item is the `None` stop sentinel, a
`TaskFuture`, or any other object (`foreign`) — the worker's
`assert isinstance(future, TaskFuture)` (line 234) is exactly the check
that a dequeued non-sentinel item is not `foreign`. -/
inductive QItem (F : Type)
  | sentinel
  | fut (f : F)
  | foreign (obj : Nat)
deriving DecidableEq

/-- The check performed by `ThreadResourceWorker.run` on a dequeued item
(lines 231–234): `None` stops the worker, a `TaskFuture` is processed, and
anything else fails the assertion. -/
def workerAccepts : QItem F → Bool
  | QItem.sentinel => true
  | QItem.fut _ => true
  | QItem.foreign _ => false

/-- One public operation on a `ThreadResourceExecutor` that touches the
shared work queue: `submit` (lines 294–303), `map` (lines 305–311, which
submits one task per item), or `shutdown` (lines 313–321, recorded with
the number of iterations its sentinel loop ran). -/
inductive PoolOp (R A W K E T : Type)
  | submitOp (fn : R → A → R × Except (ExcInfo K E T) (Option W)) (args : A)
  | mapOp (fn : R → A → R × Except (ExcInfo K E T) (Option W)) (items : List A)
  | shutdownOp (iters : Nat)

/-- The queue items a single public operation enqueues, for a pool of `n`
workers: `submit` puts one `TaskFuture`; `map` puts one `TaskFuture` per
item via `submit`; each iteration of `shutdown`'s loop puts
`len(self._workers)` sentinels (line 319–320). -/
def ThreadResourceExecutor.opEnqueues (n : Nat) :
    PoolOp R A W K E T → List (QItem (TaskFuture R A W K E T))
  | PoolOp.submitOp fn args => [QItem.fut (TaskFuture.init fn args)]
  | PoolOp.mapOp fn items => items.map fun x => QItem.fut (TaskFuture.init fn x)
  | PoolOp.shutdownOp iters => List.replicate (iters * n) QItem.sentinel

/-- All queue items enqueued by a sequence of public operations, in
order. -/
def ThreadResourceExecutor.queueTrace (n : Nat) :
    List (PoolOp R A W K E T) → List (QItem (TaskFuture R A W K E T))
  | [] => []
  | op :: rest =>
    ThreadResourceExecutor.opEnqueues n op ++ ThreadResourceExecutor.queueTrace n rest

/-- Embedding of `ThreadResourceExecutor.shutdown` (lines 313–321) as a
fuel-bounded loop. `n` is `len(self._workers)`; `sched i` gives each
worker's `is_alive()` answer as observed at the loop test of iteration
`i` (the `time.sleep(0.001)` between iterations is where workers may
consume sentinels and die). Each iteration whose aliveness test finds any
live worker puts `n` sentinels on the queue; the loop exits when no worker
is alive, returning the queue contents and the index of the exiting test.
`none` means the fuel ran out before the loop exited. -/
def ThreadResourceExecutor.shutdownLoop (n : Nat) (sched : Nat → List Bool) :
    Nat → Nat → List (QItem F) → Option (List (QItem F) × Nat)
  | _, 0, _ => none
  | i, fuel + 1, q =>
    if (sched i).any (fun b => b) then
      ThreadResourceExecutor.shutdownLoop n sched (i + 1) fuel
        (q ++ List.replicate n QItem.sentinel)
    else some (q, i)

/-- Eager submission phase of `ThreadResourceExecutor.map` (line 309):
`futures = [self.submit(func, x) for x in iterables]` — one `TaskFuture`
per input item, enqueued in input order. -/
def ThreadResourceExecutor.submitAll
    (fn : R → A → R × Except (ExcInfo K E T) (Option W)) (items : List A) :
    List (TaskFuture R A W K E T) :=
  items.map fun x => TaskFuture.init fn x

/-- Yield phase of `ThreadResourceExecutor.map` (lines 310–311):
`for future in futures: yield future.result()`. The generator yields the
values of completed futures in submission order; a re-raised exception
aborts the generator, so the result is the list of yielded values together
with the exception that escaped, if any. -/
def ThreadResourceExecutor.yieldResults :
    List (TaskFuture R A W K E T) → List (Option W) × Option (ExcInfo K E T)
  | [] => ([], none)
  | f :: rest =>
    match TaskFuture.result f with
    | Outcome.value v =>
      let c := ThreadResourceExecutor.yieldResults rest
      (v :: c.1, c.2)
    | Outcome.raises x => ([], some x)

/-- `ThreadResourceExecutor.map` on a pool with exactly one worker: all
tasks are submitted eagerly in input order, the single worker drains the
FIFO queue in that same order threading its one resource through, and the
generator then reads each future's result in input order. -/
def ThreadResourceExecutor.mapSingleWorker
    (fn : R → A → R × Except (ExcInfo K E T) (Option W)) (resource : R)
    (items : List A) : List (Option W) × Option (ExcInfo K E T) :=
  ThreadResourceExecutor.yieldResults
    (ThreadResourceWorker.runAll resource
      (ThreadResourceExecutor.submitAll fn items)).2

/-- Sequential execution of the tasks in submission order against the one
resource, stated from the spec's words ("results in submission order equal
to sequential execution of `t1..tk` against the one resource"): run each
task in turn on the evolving resource, collecting return values until a
task raises. -/
def sequentialExecution (fn : R → A → R × Except (ExcInfo K E T) (Option W))
    (resource : R) : List A → List (Option W) × Option (ExcInfo K E T)
  | [] => ([], none)
  | x :: rest =>
    match (fn resource x).2 with
    | Except.ok v =>
      let c := sequentialExecution fn (fn resource x).1 rest
      (v :: c.1, c.2)
    | Except.error e => ([], some e)

/-- Concrete task for counterexamples and witnesses: returns `42` without
touching the resource. -/
def cTask : Nat → Nat → Nat × Except (ExcInfo Nat Nat Nat) (Option Nat) :=
  fun r _ => (r, Except.ok (some 42))

/-- Concrete succeeding callable for the synchronous executor. -/
def cFnOk : Nat → Nat → Except (ExcInfo Nat Nat Nat) Nat :=
  fun r a => Except.ok (r + a)

/-- Concrete captured exception triple. -/
def cExc : ExcInfo Nat Nat Nat := ⟨1, 2, 3⟩

/-- Concrete raising callable for the synchronous executor. -/
def cFnErr : Nat → Nat → Except (ExcInfo Nat Nat Nat) Nat :=
  fun _ _ => Except.error cExc

/-- Aliveness schedule of a two-worker pool whose workers have both
already stopped. -/
def schedAllDead : Nat → List Bool := fun _ => [false, false]

/-- Aliveness schedule of a two-worker pool: at iteration 0 both workers
are alive, at iteration 1 only the first is, from iteration 2 on none
are. -/
def schedMixed : Nat → List Bool :=
  fun i => if i = 0 then [true, true] else if i = 1 then [true, false] else [false, false]

/-- Helper: the synchronous executor's map generator computes `List.map`
of `func` applied to the fixed resource. -/
lemma resourceExecutor_map_eq (R A W : Type) (r : R) (func : R → A → W)
    (xs : List A) : ResourceExecutor.map ⟨r⟩ func xs = xs.map (func r) := by
  induction xs with
  | nil => rfl
  | cons x rest ih => simp [ResourceExecutor.map, ih]

/-- Helper: one step of `ThreadResourceExecutor.map` on a single-worker
pool — the head task runs first on the resource, and either its value is
yielded ahead of the rest or its exception aborts the yield phase. -/
lemma mapSingleWorker_cons (R A W K E T : Type)
    (fn : R → A → R × Except (ExcInfo K E T) (Option W)) (r : R) (x : A)
    (rest : List A) :
    ThreadResourceExecutor.mapSingleWorker fn r (x :: rest)
      = match (fn r x).2 with
        | Except.ok v =>
          (v :: (ThreadResourceExecutor.mapSingleWorker fn (fn r x).1 rest).1,
            (ThreadResourceExecutor.mapSingleWorker fn (fn r x).1 rest).2)
        | Except.error e => ([], some e) := by
  cases h2 : (fn r x).2 with
  | ok v =>
    simp [ThreadResourceExecutor.mapSingleWorker, ThreadResourceExecutor.submitAll,
      ThreadResourceWorker.runAll, ThreadResourceWorker.runOne, TaskFuture.init, h2,
      ThreadResourceExecutor.yieldResults, TaskFuture.result]
  | error e =>
    simp [ThreadResourceExecutor.mapSingleWorker, ThreadResourceExecutor.submitAll,
      ThreadResourceWorker.runAll, ThreadResourceWorker.runOne, TaskFuture.init, h2,
      ThreadResourceExecutor.yieldResults, TaskFuture.result]

/-- C9: a `TrivialFuture` constructed with `r` has `done() = true`;
`result(timeout)` returns `r` ignoring the timeout; `cancel`, `cancelled`
and `running` all report false; `exception(timeout)` returns none; and
`add_done_callback(fn)` invokes `fn` synchronously on the future itself,
exactly once (the call's value is exactly one application of `fn` to the
future), before returning. All of these hold on every call, without
blocking, since every operation is a pure read. -/
theorem trivialFuture_spec (W E : Type) (r : W) :
    TrivialFuture.done (TrivialFuture.mk r) = true
    ∧ (∀ timeout, TrivialFuture.result (TrivialFuture.mk r) timeout = r)
    ∧ TrivialFuture.cancel (TrivialFuture.mk r) = false
    ∧ TrivialFuture.cancelled (TrivialFuture.mk r) = false
    ∧ TrivialFuture.running (TrivialFuture.mk r) = false
    ∧ (∀ timeout, TrivialFuture.exception (TrivialFuture.mk r) E timeout = none)
    ∧ (∀ (β : Type) (fn : TrivialFuture W → β),
        TrivialFuture.add_done_callback (TrivialFuture.mk r) fn
          = fn (TrivialFuture.mk r)) :=
  ⟨rfl, fun _ => rfl, rfl, rfl, rfl, fun _ => rfl, fun _ _ => rfl⟩

/-- C8: `ResourceExecutor.submit` evaluates `fn(resource, *args)`
immediately on the caller's thread: when `fn` returns `v`, submit returns
a `TrivialFuture` holding exactly `v` (already done, with `result()`
returning `v`); when `fn` raises, the exception propagates synchronously
to the caller and no future is produced. -/
theorem resourceExecutor_submit_spec (R A W K E T : Type) (r : R)
    (fn : R → A → Except (ExcInfo K E T) W) (args : A) :
    (∀ v, fn r args = Except.ok v →
      ResourceExecutor.submit ⟨r⟩ fn args = Except.ok (TrivialFuture.mk v)
      ∧ TrivialFuture.result (TrivialFuture.mk v) none = v
      ∧ TrivialFuture.done (TrivialFuture.mk v) = true)
    ∧ (∀ e, fn r args = Except.error e →
      ResourceExecutor.submit ⟨r⟩ fn args = Except.error e) := by
  constructor
  · intro v h
    exact ⟨by simp [ResourceExecutor.submit, h], rfl, rfl⟩
  · intro e h
    simp [ResourceExecutor.submit, h]

/-- Witness for C8 at concrete inputs: with resource `2` and argument `3`,
the succeeding callable yields an immediate future holding `5`, and the
raising callable propagates the exception `cExc` with no future. -/
theorem resourceExecutor_submit_spec_witness :
    ResourceExecutor.submit ⟨(2 : Nat)⟩ cFnOk 3 = Except.ok (TrivialFuture.mk 5)
    ∧ ResourceExecutor.submit ⟨(2 : Nat)⟩ cFnErr 3 = Except.error cExc :=
  ⟨((resourceExecutor_submit_spec Nat Nat Nat Nat Nat Nat 2 cFnOk 3).1 5 rfl).1,
    (resourceExecutor_submit_spec Nat Nat Nat Nat Nat Nat 2 cFnErr 3).2 cExc rfl⟩

/-- C5: `ResourceExecutor.map` yields a finite sequence with exactly one
output per input item, and the i-th output is `func(resource, item_i)` —
the input order is preserved. -/
theorem resourceExecutor_map_spec (R A W : Type) (r : R) (func : R → A → W)
    (xs : List A) :
    (ResourceExecutor.map ⟨r⟩ func xs).length = xs.length
    ∧ ∀ i : Nat, (ResourceExecutor.map ⟨r⟩ func xs)[i]? = (xs[i]?).map (func r) := by
  constructor
  · rw [resourceExecutor_map_eq]
    exact List.length_map xs (func r)
  · intro i
    rw [resourceExecutor_map_eq]
    exact List.getElem?_map (func r) xs i

/-- C7 (code bug): `ResourceExecutor.shutdown`'s body is `self.__exit__()`
— a call with zero arguments to a method with three required positional
parameters — so every call to shutdown raises
`TypeError: __exit__() missing 3 required positional arguments` and the
resource's exit protocol is never reached; by contrast, a properly
three-argument `__exit__` call does release the resource. -/
theorem resourceExecutor_shutdown_type_error (R : Type) (exitFn : R → R)
    (r : R) (w : Bool) :
    ResourceExecutor.shutdown exitFn ⟨r⟩ w = PyCallOutcome.typeErrorMissingArgs 3
    ∧ ResourceExecutor.exitCall exitFn ⟨r⟩ [(), (), ()]
        = PyCallOutcome.ok ⟨exitFn r⟩ :=
  ⟨rfl, rfl⟩

/-- C1: once a worker has processed a submitted task (which, on a pool
with at least one worker, is what an untimed `result()` call waits for),
`result()` settles exactly one way, dictated by the task's own outcome:
a normal return of the task's return value, or a re-raise of the captured
`sys.exc_info()` triple verbatim — class, exception object (with its
cause chain) and traceback from the point of failure. The two `Outcome`
constructors are disjoint and the equation is total, so it is never both
and never neither; the event is set, so the untimed wait does return. -/
theorem taskFuture_result_settles_uniquely (R A W K E T : Type) (r : R)
    (task : R → A → R × Except (ExcInfo K E T) (Option W)) (args : A) :
    TaskFuture.result ((ThreadResourceWorker.runOne r (TaskFuture.init task args)).2)
      = (match (task r args).2 with
        | Except.ok v => Outcome.value v
        | Except.error x => Outcome.raises x)
    ∧ ((ThreadResourceWorker.runOne r (TaskFuture.init task args)).2)._finished
        = true := by
  cases h : (task r args).2 with
  | ok v =>
    refine ⟨?_, ?_⟩ <;>
      simp [ThreadResourceWorker.runOne, TaskFuture.init, h, TaskFuture.result]
  | error x =>
    refine ⟨?_, ?_⟩ <;>
      simp [ThreadResourceWorker.runOne, TaskFuture.init, h, TaskFuture.result]

/-- C3: the worker's handling of a freshly dequeued future passes through
exactly the three states pending → written → signalled: the slot write
happens strictly before the event is set (the middle state is the final
one with the event still clear), the fresh future has the event clear and
the final one has it set, and in the final state (hence in every state of
the trace) the result slot and the exc-info slot are never both
populated. Nothing after the third state ever touches the future. -/
theorem worker_write_then_signal (R A W K E T : Type) (r : R)
    (task : R → A → R × Except (ExcInfo K E T) (Option W)) (args : A) :
    ThreadResourceWorker.runTrace r (TaskFuture.init task args)
      = [TaskFuture.init task args,
         { (ThreadResourceWorker.runOne r (TaskFuture.init task args)).2 with
             _finished := false },
         (ThreadResourceWorker.runOne r (TaskFuture.init task args)).2]
    ∧ (TaskFuture.init task args : TaskFuture R A W K E T)._finished = false
    ∧ ((ThreadResourceWorker.runOne r (TaskFuture.init task args)).2)._finished = true
    ∧ (((ThreadResourceWorker.runOne r (TaskFuture.init task args)).2)._result = none
       ∨ ((ThreadResourceWorker.runOne r (TaskFuture.init task args)).2)._excinfo
           = none) := by
  cases h : (task r args).2 with
  | ok v =>
    refine ⟨?_, rfl, ?_, Or.inr ?_⟩ <;>
      simp [ThreadResourceWorker.runTrace, ThreadResourceWorker.runOne,
        TaskFuture.init, h]
  | error x =>
    refine ⟨?_, rfl, ?_, Or.inl ?_⟩ <;>
      simp [ThreadResourceWorker.runTrace, ThreadResourceWorker.runOne,
        TaskFuture.init, h]

/-- C4 counterexample: a pending `TaskFuture` (its task returns `42` but
no worker has run it yet) observed by `result(timeout)` after the bounded
wait expired. The claim says this call signals a timeout failure of a
distinct kind; the code ignores `Event.wait`'s return value and falls
through to `return self._result`, producing the normal return
`Outcome.value none` (Python `None`, the unwritten slot) — no failure of
any kind is raised. -/
theorem timeout_returns_none_counterexample :
    TaskFuture.result (TaskFuture.init cTask 0) = Outcome.value none := rfl

/-- C4 as amended: a `result(timeout)` call whose bounded wait expires
before the task completes returns Python `None` (the unwritten result
slot) as a normal value rather than signaling a distinct timeout failure;
it leaves the future's pending state untouched (`result` mutates nothing
and the event stays clear), so a later untimed `result()` call still
observes the task's eventual real outcome once a worker has run it. -/
theorem timeout_leaves_future_pending (R A W K E T : Type) (r : R)
    (task : R → A → R × Except (ExcInfo K E T) (Option W)) (args : A) :
    TaskFuture.result (TaskFuture.init task args) = Outcome.value none
    ∧ (TaskFuture.init task args : TaskFuture R A W K E T)._finished = false
    ∧ TaskFuture.result ((ThreadResourceWorker.runOne r (TaskFuture.init task args)).2)
        = (match (task r args).2 with
          | Except.ok v => Outcome.value v
          | Except.error x => Outcome.raises x) := by
  refine ⟨rfl, rfl, ?_⟩
  cases h : (task r args).2 with
  | ok v =>
    simp [ThreadResourceWorker.runOne, TaskFuture.init, h, TaskFuture.result]
  | error x =>
    simp [ThreadResourceWorker.runOne, TaskFuture.init, h, TaskFuture.result]

/-- C10: every item that the pooled executor's public operations put on
the shared work queue — over any sequence of `submit`, `map` and
`shutdown` calls — is either a `TaskFuture` or the `None` stop sentinel,
so the worker loop's `assert isinstance(future, TaskFuture)` accepts
every dequeued non-sentinel item. -/
theorem queue_items_well_formed (R A W K E T : Type) (n : Nat)
    (ops : List (PoolOp R A W K E T)) :
    (ThreadResourceExecutor.queueTrace n ops).all workerAccepts = true := by
  induction ops with
  | nil => rfl
  | cons op rest ih =>
    rw [ThreadResourceExecutor.queueTrace, List.all_append, ih, Bool.and_true]
    cases op with
    | submitOp fn args => rfl
    | mapOp fn items =>
      simp [ThreadResourceExecutor.opEnqueues, List.all_eq_true, workerAccepts]
    | shutdownOp iters =>
      simp [ThreadResourceExecutor.opEnqueues, List.all_eq_true,
        List.eq_of_mem_replicate, workerAccepts]

/-- C2 counterexample: a two-worker pool in the state where the second
worker has already stopped and the first is still alive (`schedMixed 1 =
[true, false]`, one live worker). The shutdown loop's next iteration
enqueues `len(self._workers)` = 2 sentinels — not 1 per still-alive
worker as the claim states — and then exits at iteration 2 when both are
dead. -/
theorem shutdown_sentinels_per_worker_counterexample :
    ThreadResourceExecutor.shutdownLoop 2 schedMixed 1 4 ([] : List (QItem Unit))
      = some ([QItem.sentinel, QItem.sentinel], 2)
    ∧ (schedMixed 1).count true = 1 := by decide

/-- C2 as amended: each iteration of `shutdown` whose aliveness test sees
any live worker enqueues one stop sentinel per worker (per pool member,
whether or not that worker is still alive) and pauses; the loop runs until
no worker is alive. Whenever shutdown returns: the aliveness test it
exited on reported no live worker, and the queue grew by exactly
`iterations * num_workers` sentinels. And a shutdown call made when no
worker is alive returns immediately, enqueuing nothing — a second
shutdown after all workers have stopped is a safe no-op. -/
theorem shutdown_loop_spec (F : Type) (n : Nat) (sched : Nat → List Bool) :
    (∀ i fuel, ∀ (q q' : List (QItem F)) (j : Nat),
      ThreadResourceExecutor.shutdownLoop n sched i fuel q = some (q', j) →
        (sched j).any (fun b => b) = false
        ∧ i ≤ j
        ∧ q' = q ++ List.replicate ((j - i) * n) QItem.sentinel)
    ∧ (∀ i (q : List (QItem F)),
      (sched i).any (fun b => b) = false →
        ThreadResourceExecutor.shutdownLoop n sched i 1 q = some (q, i)) := by
  constructor
  · intro i fuel
    induction fuel generalizing i with
    | zero =>
      intro q q' j h
      simp [ThreadResourceExecutor.shutdownLoop] at h
    | succ fuel ih =>
      intro q q' j h
      by_cases hb : (sched i).any (fun b => b) = true
      · rw [ThreadResourceExecutor.shutdownLoop, if_pos hb] at h
        obtain ⟨ha, hij, hq⟩ := ih (i + 1) (q ++ List.replicate n QItem.sentinel) q' j h
        refine ⟨ha, Nat.le_trans (Nat.le_succ i) hij, ?_⟩
        rw [hq, List.append_assoc, ← List.replicate_add]
        have hji : j - i = (j - (i + 1)) + 1 := by omega
        rw [hji, Nat.add_mul, Nat.one_mul, Nat.add_comm]
      · have hbf : (sched i).any (fun b => b) = false := by
          cases hx : (sched i).any (fun b => b) with
          | false => rfl
          | true => exact absurd hx hb
        rw [ThreadResourceExecutor.shutdownLoop, if_neg (by simp [hbf])] at h
        obtain ⟨rfl, rfl⟩ : q = q' ∧ i = j := by
          have := Option.some.inj h
          exact ⟨congrArg Prod.fst this, congrArg Prod.snd this⟩
        simpa using hbf
  · intro i q h
    rw [ThreadResourceExecutor.shutdownLoop, if_neg (by simp [h])]

/-- Witness for C2's theorem: a two-worker pool with both workers already
stopped — shutdown returns at once with the queue unchanged, and the
postcondition facts follow by applying the theorem at this input. -/
theorem shutdown_loop_spec_witness :
    ThreadResourceExecutor.shutdownLoop 2 schedAllDead 0 1 ([] : List (QItem Unit))
      = some ([], 0) :=
  (shutdown_loop_spec Unit 2 schedAllDead).2 0 [] (by decide)

/-- C6: `ThreadResourceExecutor.map` submits exactly one task per input
item eagerly (the futures list has one entry per item, in input order)
and then yields each future's blocking result in the original input
order; on a single-worker pool this yield sequence equals sequential
execution of the tasks in submission order against the one resource —
including the point at which a raising task aborts the generator. -/
theorem pooled_map_single_worker_sequential (R A W K E T : Type)
    (fn : R → A → R × Except (ExcInfo K E T) (Option W)) (r : R)
    (items : List A) :
    ThreadResourceExecutor.mapSingleWorker fn r items
      = sequentialExecution fn r items
    ∧ (ThreadResourceExecutor.submitAll fn items).length = items.length := by
  constructor
  · induction items generalizing r with
    | nil => rfl
    | cons x rest ih =>
      cases h2 : (fn r x).2 with
      | ok v =>
        rw [mapSingleWorker_cons]
        simp [h2, sequentialExecution, ih]
      | error e =>
        rw [mapSingleWorker_cons]
        simp [h2, sequentialExecution]
  · simp [ThreadResourceExecutor.submitAll]

end UprootFutures
